import Mathlib

/-!
Shallow embedding of `pdsl_core/src/storage/cell/sync_cell.rs`: a write-back,
lazily synchronized cache (`SyncCell`) in front of a single persistent storage
slot, built from a two-state cache entry (`Desync` / `Sync`) carrying a dirty
flag and an optional cached value.

Rust constructs are translated as follows:
- `Pin<Box<Option<T>>>` is a memory-layout device for reference stability; its
  logical content is `Option α`.
- `RefCell` interior mutability becomes explicit state passing: operations on
  `Cache`/`SyncCell` return the updated value.
- The external `TypedCell` storage slot (out of scope of the source file) is
  modelled from the spec as an environment holding the persisted slot content
  together with read/write accounting counters.
- Panics (reading a `Desync` cache) are modelled by an `Option` result where
  `none` means the panic was hit.
- Mutation through a returned `&mut T` reference is modelled explicitly by
  `CacheEntry.write_through`, used by `mutate_with`.
-/

set_option autoImplicit false

namespace SyncCellSpec

/-- Rust `SyncCacheEntry<T>`: a dirty flag plus the optional cached value
(the `Pin<Box<...>>` wrapper is erased; it only pins the memory location). -/
structure SyncCacheEntry (α : Type) where
  dirty : Bool
  cell_val : Option α
deriving DecidableEq

namespace SyncCacheEntry

variable {α : Type}

/-- Rust `SyncCacheEntry::update` (lines 67-71): replaces the cached value;
the dirty flag is left untouched by this operation. -/
def update (e : SyncCacheEntry α) (new_val : Option α) : SyncCacheEntry α :=
  { e with cell_val := new_val }

/-- Rust `SyncCacheEntry::new` (lines 79-84): not dirty, given value. -/
def new (val : Option α) : SyncCacheEntry α :=
  { dirty := false, cell_val := val }

/-- Rust `SyncCacheEntry::is_dirty`. -/
def is_dirty (e : SyncCacheEntry α) : Bool :=
  e.dirty

/-- Rust `SyncCacheEntry::mark_dirty`. -/
def mark_dirty (e : SyncCacheEntry α) : SyncCacheEntry α :=
  { e with dirty := true }

/-- Rust `SyncCacheEntry::mark_clean`. -/
def mark_clean (e : SyncCacheEntry α) : SyncCacheEntry α :=
  { e with dirty := false }

/-- Rust `SyncCacheEntry::get`: the optional cached value. -/
def get (e : SyncCacheEntry α) : Option α :=
  e.cell_val

/-- Rust `SyncCacheEntry::get_mut` (lines 115-118): marks the entry dirty and
exposes the optional value; the returned pair is the updated entry together
with the value seen through the mutable reference. -/
def get_mut (e : SyncCacheEntry α) : SyncCacheEntry α × Option α :=
  (e.mark_dirty, e.cell_val)

end SyncCacheEntry

/-- Rust `CacheEntry<T>`: `Desync` or `Sync(SyncCacheEntry<T>)`. -/
inductive CacheEntry (α : Type) where
  | Desync : CacheEntry α
  | Sync (sync_entry : SyncCacheEntry α) : CacheEntry α
deriving DecidableEq

namespace CacheEntry

variable {α : Type}

/-- Rust `Default for CacheEntry` (lines 130-134): `Desync`. -/
def default : CacheEntry α :=
  CacheEntry.Desync

/-- Rust `CacheEntry::update` (lines 141-150): on `Desync` build a fresh
`SyncCacheEntry::new` record; on `Sync` forward to `SyncCacheEntry::update`
(which keeps the dirty flag). -/
def update : CacheEntry α → Option α → CacheEntry α
  | CacheEntry.Desync, new_val => CacheEntry.Sync (SyncCacheEntry.new new_val)
  | CacheEntry.Sync sync_entry, new_val => CacheEntry.Sync (sync_entry.update new_val)

/-- Rust `CacheEntry::is_synced` (lines 155-160). -/
def is_synced : CacheEntry α → Bool
  | CacheEntry.Desync => false
  | CacheEntry.Sync _ => true

/-- Rust `CacheEntry::is_dirty` (lines 163-168). -/
def is_dirty : CacheEntry α → Bool
  | CacheEntry.Desync => false
  | CacheEntry.Sync sync_entry => sync_entry.is_dirty

/-- Rust `CacheEntry::mark_dirty` (lines 171-176): no-op on `Desync`. -/
def mark_dirty : CacheEntry α → CacheEntry α
  | CacheEntry.Desync => CacheEntry.Desync
  | CacheEntry.Sync sync_entry => CacheEntry.Sync sync_entry.mark_dirty

/-- Rust `CacheEntry::mark_clean` (lines 179-184): no-op on `Desync`. -/
def mark_clean : CacheEntry α → CacheEntry α
  | CacheEntry.Desync => CacheEntry.Desync
  | CacheEntry.Sync sync_entry => CacheEntry.Sync sync_entry.mark_clean

/-- Rust `CacheEntry::get` (lines 191-203): panics on `Desync` (modelled as
`none`); on `Sync` returns the optional cached value. -/
def get : CacheEntry α → Option (Option α)
  | CacheEntry.Desync => none
  | CacheEntry.Sync sync_entry => some sync_entry.get

/-- Rust `CacheEntry::get_mut` (lines 215-227): panics on `Desync` (modelled
as `none`); on `Sync` forwards to `SyncCacheEntry::get_mut`, yielding the
dirty-marked entry together with the optional value. -/
def get_mut : CacheEntry α → Option (CacheEntry α × Option α)
  | CacheEntry.Desync => none
  | CacheEntry.Sync sync_entry =>
      some (CacheEntry.Sync (sync_entry.get_mut).1, (sync_entry.get_mut).2)

/-- Writing through the mutable reference handed out by `get_mut`: replaces
the cached value in place; the dirty flag is not touched by the write itself
(`get_mut` already set it). Reaching this with `Desync` would mean the
reference never existed, so `Desync` is left unchanged. -/
def write_through : CacheEntry α → α → CacheEntry α
  | CacheEntry.Desync, _ => CacheEntry.Desync
  | CacheEntry.Sync sync_entry, v =>
      CacheEntry.Sync { sync_entry with cell_val := some v }

end CacheEntry

/-- Rust `Cache<T>` (lines 230-235): a `CacheEntry` behind a `RefCell`; the
interior mutability becomes explicit state passing, so the wrapper is the
entry itself. -/
structure Cache (α : Type) where
  entry : CacheEntry α
deriving DecidableEq

namespace Cache

variable {α : Type}

/-- Rust `Default for Cache` (lines 237-241). -/
def default : Cache α :=
  { entry := CacheEntry.default }

/-- Rust `Cache::update` (lines 253-255). -/
def update (c : Cache α) (new_val : Option α) : Cache α :=
  { entry := c.entry.update new_val }

/-- Rust `Cache::is_synced` (lines 260-262). -/
def is_synced (c : Cache α) : Bool :=
  c.entry.is_synced

/-- Rust `Cache::is_dirty` (lines 265-267). -/
def is_dirty (c : Cache α) : Bool :=
  c.entry.is_dirty

/-- Rust `Cache::mark_dirty` (lines 270-272). -/
def mark_dirty (c : Cache α) : Cache α :=
  { entry := c.entry.mark_dirty }

/-- Rust `Cache::mark_clean` (lines 275-277). -/
def mark_clean (c : Cache α) : Cache α :=
  { entry := c.entry.mark_clean }

/-- Rust `Cache::get` (lines 298-300), forwarding to `CacheEntry::get`;
`none` models the panic on a desynchronized cache. -/
def get (c : Cache α) : Option (Option α) :=
  c.entry.get

/-- Rust `Cache::get_mut` (lines 312-314), forwarding to
`CacheEntry::get_mut`; `none` models the panic on a desynchronized cache. -/
def get_mut (c : Cache α) : Option (Cache α × Option α) :=
  match c.entry.get_mut with
  | none => none
  | some p => some ({ entry := p.1 }, p.2)

end Cache

/-- Modelled from the spec: the external underlying storage slot consumed by
`SyncCell` (the `TypedCell` implementation is not part of the source file;
the spec describes it as `load() -> Option<Value>` counting one read, and
`store`/`clear` each counting one write). One environment holds the persisted
content of the cell's slot together with the read/write accounting. -/
structure Env (α : Type) where
  slot : Option α
  reads : Nat
  writes : Nat
deriving DecidableEq

/-- Modelled from the spec: the underlying typed cell handle; its only
persistent identity is the slot address assigned at construction. -/
structure TypedCell (α : Type) where
  key : Nat
deriving DecidableEq

namespace TypedCell

variable {α : Type}

/-- Modelled from the spec: `load() -> Option<Value>`, one accounted read. -/
def load (_c : TypedCell α) (env : Env α) : Env α × Option α :=
  ({ env with reads := env.reads + 1 }, env.slot)

/-- Modelled from the spec: `store(value)`, one accounted write. -/
def store (_c : TypedCell α) (v : α) (env : Env α) : Env α :=
  { slot := some v, reads := env.reads, writes := env.writes + 1 }

/-- Modelled from the spec: `clear()`, one accounted write (erase). -/
def clear (_c : TypedCell α) (env : Env α) : Env α :=
  { slot := none, reads := env.reads, writes := env.writes + 1 }

/-- Modelled from the spec: the codec persists only the slot address. -/
def encode (c : TypedCell α) : Nat :=
  c.key

/-- Modelled from the spec: decoding reconstructs the handle at the decoded
address. -/
def decode (k : Nat) : TypedCell α :=
  { key := k }

end TypedCell

/-- Rust `SyncCell<T>` (lines 41-47): the underlying typed cell plus the
in-memory cache. -/
structure SyncCell (α : Type) where
  cell : TypedCell α
  cache : Cache α
deriving DecidableEq

namespace SyncCell

variable {α : Type}

/-- Rust `SyncCell::new_using_alloc` (lines 355-363): a freshly allocated
cell at the address handed out by the allocator, with a default (`Desync`)
cache. -/
def new_using_alloc (key : Nat) : SyncCell α :=
  { cell := { key := key }, cache := Cache.default }

/-- The lazy synchronization step shared by `get` (lines 383-386) and
`get_mut` (lines 408-411): if the cache is not synced, perform one underlying
`load` and feed the result into `Cache::update`. -/
def sync_cache (c : SyncCell α) (env : Env α) : SyncCell α × Env α :=
  if c.cache.is_synced then (c, env)
  else
    ({ c with cache := c.cache.update (c.cell.load env).2 }, (c.cell.load env).1)

/-- Rust `SyncCell::get` (lines 382-388): sync if needed, then read the
cache. The result carries the updated cell, the environment, and the optional
value; `none` models the (unreachable) panic of `Cache::get`. -/
def get (c : SyncCell α) (env : Env α) : Option (SyncCell α × Env α × Option α) :=
  match (c.sync_cache env).1.cache.get with
  | none => none
  | some v => some ((c.sync_cache env).1, (c.sync_cache env).2, v)

/-- Rust `SyncCell::set` (lines 396-399): `update(Some(val))` then
`mark_dirty`; no underlying operation. -/
def set (c : SyncCell α) (val : α) : SyncCell α :=
  { c with cache := (c.cache.update (some val)).mark_dirty }

/-- Rust `SyncCell::clear` (lines 371-374): `update(None)` then `mark_dirty`;
no underlying operation. -/
def clear (c : SyncCell α) : SyncCell α :=
  { c with cache := (c.cache.update none).mark_dirty }

/-- Rust `SyncCell::get_mut` (lines 407-414): sync if needed, unconditionally
mark dirty, then `Cache::get_mut`. `none` models the (unreachable) panic. -/
def get_mut (c : SyncCell α) (env : Env α) : Option (SyncCell α × Env α × Option α) :=
  match ((c.sync_cache env).1.cache.mark_dirty).get_mut with
  | none => none
  | some p =>
      some ({ (c.sync_cache env).1 with cache := p.1 }, (c.sync_cache env).2, p.2)

/-- Rust `SyncCell::mutate_with` (lines 420-429): `get_mut`; if a value is
there apply `f` through the mutable reference and return the result,
otherwise return `none` without invoking `f`. -/
def mutate_with (c : SyncCell α) (f : α → α) (env : Env α) :
    Option (SyncCell α × Env α × Option α) :=
  match c.get_mut env with
  | none => none
  | some (c1, env1, none) => some (c1, env1, none)
  | some (c1, env1, some v) =>
      some ({ c1 with cache := { entry := c1.cache.entry.write_through (f v) } },
            env1, some (f v))

/-- Rust `Flush for SyncCell` (lines 337-345): if the cache is dirty, write
back once — `store` if a value is cached, `clear` otherwise — then mark the
cache clean; if not dirty, do nothing. `none` models the (unreachable) panic
of reading the cache while `Desync`. -/
def flush (c : SyncCell α) (env : Env α) : Option (SyncCell α × Env α) :=
  if c.cache.is_dirty then
    match c.cache.get with
    | none => none
    | some (some v) =>
        some ({ c with cache := c.cache.mark_clean }, c.cell.store v env)
    | some none =>
        some ({ c with cache := c.cache.mark_clean }, c.cell.clear env)
  else some (c, env)

/-- Rust `Encode for SyncCell` (lines 317-321): only the underlying cell is
encoded; the cache never is. -/
def encode (c : SyncCell α) : Nat :=
  c.cell.encode

/-- Rust `Decode for SyncCell` (lines 323-331): decode the underlying cell
and attach a default (`Desync`) cache; no underlying load happens (the
environment is not consulted). -/
def decode (k : Nat) : SyncCell α :=
  { cell := TypedCell.decode k, cache := Cache.default }

end SyncCell

/-- One read operation of the public API: `get` or `get_mut`. -/
inductive ReadOp where
  | opGet : ReadOp
  | opGetMut : ReadOp
deriving DecidableEq

/-- Runs a sequence of `get`/`get_mut` calls on a cell, threading the cell and
the environment; `none` models a panic along the way. -/
def runReads {α : Type} : List ReadOp → SyncCell α → Env α → Option (SyncCell α × Env α)
  | [], c, env => some (c, env)
  | op :: ops, c, env =>
    match (match op with
           | ReadOp.opGet => c.get env
           | ReadOp.opGetMut => c.get_mut env) with
    | none => none
    | some (c1, env1, _) => runReads ops c1 env1

/-- One write operation of the public API: `set v` or `clear`. -/
inductive WriteOp (α : Type) where
  | wset (v : α) : WriteOp α
  | wclear : WriteOp α

/-- Applies one write operation to a cell (no environment involved: `set` and
`clear` only touch the cache). -/
def applyWrite {α : Type} : WriteOp α → SyncCell α → SyncCell α
  | WriteOp.wset v, c => c.set v
  | WriteOp.wclear, c => c.clear

/-- Runs a sequence of `set`/`clear` calls on a cell. -/
def runWrites {α : Type} : List (WriteOp α) → SyncCell α → SyncCell α
  | [], c => c
  | op :: ops, c => runWrites ops (applyWrite op c)

/-- The slot content a write operation asks to be persisted. -/
def lastEffect {α : Type} : WriteOp α → Option α
  | WriteOp.wset v => some v
  | WriteOp.wclear => none

/-- The value the cell's cache holds once the lazy synchronization step has
run (the value `get`/`get_mut` will expose). -/
def SyncCell.cached_value {α : Type} (c : SyncCell α) (env : Env α) : Option α :=
  match (c.sync_cache env).1.cache.entry with
  | CacheEntry.Desync => none
  | CacheEntry.Sync e => e.cell_val

/-- Iterates `set v` a given number of times (lines 396-399). -/
def iterSet {α : Type} : Nat → α → SyncCell α → SyncCell α
  | 0, _, c => c
  | n + 1, v, c => iterSet n v (c.set v)

/-- Iterates `clear` a given number of times (lines 371-374). -/
def iterClear {α : Type} : Nat → SyncCell α → SyncCell α
  | 0, c => c
  | n + 1, c => iterClear n (c.clear)

section Lemmas

variable {α : Type}

lemma set_eq (c : SyncCell α) (v : α) :
    c.set v = { cell := c.cell,
                cache := { entry := CacheEntry.Sync { dirty := true, cell_val := some v } } } := by
  cases c with
  | mk cell cache =>
    cases cache with
    | mk entry =>
      cases entry <;>
        simp [SyncCell.set, Cache.update, Cache.mark_dirty, CacheEntry.update,
          CacheEntry.mark_dirty, SyncCacheEntry.new, SyncCacheEntry.update,
          SyncCacheEntry.mark_dirty]

lemma clear_eq (c : SyncCell α) :
    c.clear = { cell := c.cell,
                cache := { entry := CacheEntry.Sync { dirty := true, cell_val := none } } } := by
  cases c with
  | mk cell cache =>
    cases cache with
    | mk entry =>
      cases entry <;>
        simp [SyncCell.clear, Cache.update, Cache.mark_dirty, CacheEntry.update,
          CacheEntry.mark_dirty, SyncCacheEntry.new, SyncCacheEntry.update,
          SyncCacheEntry.mark_dirty]

lemma sync_cache_of_synced (c : SyncCell α) (env : Env α)
    (h : c.cache.is_synced = true) : c.sync_cache env = (c, env) := by
  simp [SyncCell.sync_cache, h]

lemma sync_cache_of_sync_entry (c : SyncCell α) (env : Env α) (e : SyncCacheEntry α)
    (h : c.cache.entry = CacheEntry.Sync e) : c.sync_cache env = (c, env) := by
  apply sync_cache_of_synced
  simp [Cache.is_synced, h, CacheEntry.is_synced]

lemma sync_cache_of_desync (c : SyncCell α) (env : Env α)
    (h : c.cache.entry = CacheEntry.Desync) :
    c.sync_cache env
      = ({ cell := c.cell,
           cache := { entry := CacheEntry.Sync { dirty := false, cell_val := env.slot } } },
         { slot := env.slot, reads := env.reads + 1, writes := env.writes }) := by
  have hs : c.cache.is_synced = false := by
    simp [Cache.is_synced, h, CacheEntry.is_synced]
  simp [SyncCell.sync_cache, hs, TypedCell.load, Cache.update, h, CacheEntry.update,
    SyncCacheEntry.new]

lemma sync_cache_sync_entry (c : SyncCell α) (env : Env α) :
    ∃ e, (c.sync_cache env).1.cache.entry = CacheEntry.Sync e := by
  cases h : c.cache.entry with
  | Desync => exact ⟨_, by rw [sync_cache_of_desync c env h]⟩
  | Sync e => exact ⟨e, by rw [sync_cache_of_sync_entry c env e h]; exact h⟩

lemma sync_cache_cell (c : SyncCell α) (env : Env α) :
    (c.sync_cache env).1.cell = c.cell := by
  by_cases h : c.cache.is_synced = true
  · rw [sync_cache_of_synced c env h]
  · simp [SyncCell.sync_cache, h]

lemma get_eq_of_entry (c : SyncCell α) (env : Env α) (e : SyncCacheEntry α)
    (h : (c.sync_cache env).1.cache.entry = CacheEntry.Sync e) :
    c.get env = some ((c.sync_cache env).1, (c.sync_cache env).2, e.cell_val) := by
  simp [SyncCell.get, Cache.get, h, CacheEntry.get, SyncCacheEntry.get]

lemma get_mut_eq_of_entry (c : SyncCell α) (env : Env α) (e : SyncCacheEntry α)
    (h : (c.sync_cache env).1.cache.entry = CacheEntry.Sync e) :
    c.get_mut env
      = some ({ cell := c.cell,
                cache := { entry := CacheEntry.Sync { dirty := true, cell_val := e.cell_val } } },
              (c.sync_cache env).2, e.cell_val) := by
  have hc := sync_cache_cell c env
  cases hp : c.sync_cache env with
  | mk c1 env1 =>
    rw [hp] at h hc
    cases c1 with
    | mk cell1 cache1 =>
      cases cache1 with
      | mk entry1 =>
        simp at h hc
        subst h hc
        simp [SyncCell.get_mut, hp, Cache.mark_dirty, CacheEntry.mark_dirty,
          SyncCacheEntry.mark_dirty, Cache.get_mut, CacheEntry.get_mut,
          SyncCacheEntry.get_mut]

lemma mutate_with_eq_of_some (c : SyncCell α) (env : Env α) (f : α → α)
    (e : SyncCacheEntry α) (v : α)
    (h : (c.sync_cache env).1.cache.entry = CacheEntry.Sync e)
    (hv : e.cell_val = some v) :
    c.mutate_with f env
      = some ({ cell := c.cell,
                cache := { entry := CacheEntry.Sync { dirty := true, cell_val := some (f v) } } },
              (c.sync_cache env).2, some (f v)) := by
  rw [SyncCell.mutate_with, get_mut_eq_of_entry c env e h, hv]
  simp [CacheEntry.write_through]

lemma mutate_with_eq_of_none (c : SyncCell α) (env : Env α) (f : α → α)
    (e : SyncCacheEntry α)
    (h : (c.sync_cache env).1.cache.entry = CacheEntry.Sync e)
    (hv : e.cell_val = none) :
    c.mutate_with f env
      = some ({ cell := c.cell,
                cache := { entry := CacheEntry.Sync { dirty := true, cell_val := none } } },
              (c.sync_cache env).2, none) := by
  rw [SyncCell.mutate_with, get_mut_eq_of_entry c env e h, hv]

lemma flush_of_not_dirty (c : SyncCell α) (env : Env α)
    (h : c.cache.is_dirty = false) : c.flush env = some (c, env) := by
  simp [SyncCell.flush, h]

lemma flush_of_dirty_some (c : SyncCell α) (env : Env α) (v : α)
    (h : c.cache.entry = CacheEntry.Sync { dirty := true, cell_val := some v }) :
    c.flush env
      = some ({ cell := c.cell,
                cache := { entry := CacheEntry.Sync { dirty := false, cell_val := some v } } },
              { slot := some v, reads := env.reads, writes := env.writes + 1 }) := by
  have hd : c.cache.is_dirty = true := by
    simp [Cache.is_dirty, h, CacheEntry.is_dirty, SyncCacheEntry.is_dirty]
  simp [SyncCell.flush, hd, Cache.get, h, CacheEntry.get, SyncCacheEntry.get,
    TypedCell.store, Cache.mark_clean, CacheEntry.mark_clean, SyncCacheEntry.mark_clean]

lemma flush_of_dirty_none (c : SyncCell α) (env : Env α)
    (h : c.cache.entry = CacheEntry.Sync { dirty := true, cell_val := none }) :
    c.flush env
      = some ({ cell := c.cell,
                cache := { entry := CacheEntry.Sync { dirty := false, cell_val := none } } },
              { slot := none, reads := env.reads, writes := env.writes + 1 }) := by
  have hd : c.cache.is_dirty = true := by
    simp [Cache.is_dirty, h, CacheEntry.is_dirty, SyncCacheEntry.is_dirty]
  simp [SyncCell.flush, hd, Cache.get, h, CacheEntry.get, SyncCacheEntry.get,
    TypedCell.clear, Cache.mark_clean, CacheEntry.mark_clean, SyncCacheEntry.mark_clean]

lemma is_dirty_entry (c : SyncCell α) (h : c.cache.is_dirty = true) :
    ∃ ov, c.cache.entry = CacheEntry.Sync { dirty := true, cell_val := ov } := by
  cases he : c.cache.entry with
  | Desync =>
    rw [Cache.is_dirty, he] at h
    simp [CacheEntry.is_dirty] at h
  | Sync e =>
    refine ⟨e.cell_val, ?_⟩
    rw [Cache.is_dirty, he] at h
    simp [CacheEntry.is_dirty, SyncCacheEntry.is_dirty] at h
    cases e with
    | mk d cv => simp at h; simp [h]

lemma set_cell (c : SyncCell α) (v : α) : (c.set v).cell = c.cell := rfl

lemma clear_cell (c : SyncCell α) : (c.clear).cell = c.cell := rfl

lemma get_eq_of_synced (c : SyncCell α) (env : Env α) (e : SyncCacheEntry α)
    (h : c.cache.entry = CacheEntry.Sync e) :
    c.get env = some (c, env, e.cell_val) := by
  have hs := sync_cache_of_sync_entry c env e h
  have hg := get_eq_of_entry c env e (by rw [hs]; exact h)
  rw [hs] at hg
  exact hg

lemma get_mut_eq_of_synced (c : SyncCell α) (env : Env α) (e : SyncCacheEntry α)
    (h : c.cache.entry = CacheEntry.Sync e) :
    c.get_mut env
      = some ({ cell := c.cell,
                cache := { entry := CacheEntry.Sync { dirty := true, cell_val := e.cell_val } } },
              env, e.cell_val) := by
  have hs := sync_cache_of_sync_entry c env e h
  have hg := get_mut_eq_of_entry c env e (by rw [hs]; exact h)
  rw [hs] at hg
  exact hg

lemma get_eq_of_desync (c : SyncCell α) (env : Env α)
    (h : c.cache.entry = CacheEntry.Desync) :
    c.get env
      = some ({ cell := c.cell,
                cache := { entry := CacheEntry.Sync { dirty := false, cell_val := env.slot } } },
              { slot := env.slot, reads := env.reads + 1, writes := env.writes },
              env.slot) := by
  have hd := sync_cache_of_desync c env h
  have hg := get_eq_of_entry c env { dirty := false, cell_val := env.slot } (by rw [hd])
  rw [hd] at hg
  exact hg

lemma get_mut_eq_of_desync (c : SyncCell α) (env : Env α)
    (h : c.cache.entry = CacheEntry.Desync) :
    c.get_mut env
      = some ({ cell := c.cell,
                cache := { entry := CacheEntry.Sync { dirty := true, cell_val := env.slot } } },
              { slot := env.slot, reads := env.reads + 1, writes := env.writes },
              env.slot) := by
  have hd := sync_cache_of_desync c env h
  have hg := get_mut_eq_of_entry c env { dirty := false, cell_val := env.slot } (by rw [hd])
  rw [hd] at hg
  exact hg

lemma runReads_synced (ops : List ReadOp) (c : SyncCell α) (env : Env α)
    (e : SyncCacheEntry α) (h : c.cache.entry = CacheEntry.Sync e) :
    ∃ c' e', runReads ops c env = some (c', env)
      ∧ c'.cache.entry = CacheEntry.Sync e'
      ∧ c'.cell = c.cell := by
  induction ops generalizing c e with
  | nil => exact ⟨c, e, rfl, h, rfl⟩
  | cons op ops ih =>
    cases op with
    | opGet =>
      obtain ⟨c', e', hrun, he', hcell⟩ := ih c e h
      refine ⟨c', e', ?_, he', hcell⟩
      simp [runReads, get_eq_of_synced c env e h, hrun]
    | opGetMut =>
      obtain ⟨c', e', hrun, he', hcell⟩ :=
        ih { cell := c.cell,
             cache := { entry := CacheEntry.Sync { dirty := true, cell_val := e.cell_val } } }
           { dirty := true, cell_val := e.cell_val } rfl
      refine ⟨c', e', ?_, he', by rw [hcell]⟩
      simp [runReads, get_mut_eq_of_synced c env e h, hrun]

lemma applyWrite_eq (op : WriteOp α) (c : SyncCell α) :
    applyWrite op c
      = { cell := c.cell,
          cache := { entry := CacheEntry.Sync { dirty := true, cell_val := lastEffect op } } } := by
  cases op with
  | wset v => simpa [applyWrite, lastEffect] using set_eq c v
  | wclear => simpa [applyWrite, lastEffect] using clear_eq c

lemma applyWrite_cell (op : WriteOp α) (c : SyncCell α) :
    (applyWrite op c).cell = c.cell := by
  rw [applyWrite_eq]

lemma runWrites_append_last (ops : List (WriteOp α)) (lastOp : WriteOp α) (c : SyncCell α) :
    runWrites (ops ++ [lastOp]) c
      = { cell := c.cell,
          cache := { entry := CacheEntry.Sync { dirty := true,
                                                cell_val := lastEffect lastOp } } } := by
  induction ops generalizing c with
  | nil => simpa [runWrites] using applyWrite_eq lastOp c
  | cons op ops ih =>
    have h1 : runWrites ((op :: ops) ++ [lastOp]) c
        = runWrites (ops ++ [lastOp]) (applyWrite op c) := rfl
    rw [h1, ih (applyWrite op c), applyWrite_cell]

lemma iterSet_succ (n : Nat) (v : α) (c : SyncCell α) :
    iterSet (n + 1) v c
      = { cell := c.cell,
          cache := { entry := CacheEntry.Sync { dirty := true, cell_val := some v } } } := by
  induction n generalizing c with
  | zero => simpa [iterSet] using set_eq c v
  | succ n ih =>
    have h1 : iterSet (n + 1 + 1) v c = iterSet (n + 1) v (c.set v) := rfl
    rw [h1, ih (c.set v), set_cell]

lemma iterClear_succ (n : Nat) (c : SyncCell α) :
    iterClear (n + 1) c
      = { cell := c.cell,
          cache := { entry := CacheEntry.Sync { dirty := true, cell_val := none } } } := by
  induction n generalizing c with
  | zero => simpa [iterClear] using clear_eq c
  | succ n ih =>
    have h1 : iterClear (n + 1 + 1) c = iterClear (n + 1) (c.clear) := rfl
    rw [h1, ih (c.clear), clear_cell]

end Lemmas

section Theorems

variable {α : Type}

/-- C1: the claim states that `update(v')` always leaves the entry in the
`Sync` state with the dirty flag cleared, in particular on an already-`Sync`
entry. Evaluating `CacheEntry.update` at a `Sync` entry whose dirty flag is
set shows the code keeps `dirty = true` — only the value is replaced —
contradicting the claim (and the code's own note on `Cache::update` that the
cache is not dirty after the operation). -/
theorem c1_update_on_dirty_sync_keeps_dirty :
    CacheEntry.update
        (CacheEntry.Sync { dirty := true, cell_val := some (0 : Nat) }) (some 1)
      = CacheEntry.Sync { dirty := true, cell_val := some 1 }
    ∧ (CacheEntry.update
        (CacheEntry.Sync { dirty := true, cell_val := some (0 : Nat) }) (some 1)).is_dirty
      = true :=
  ⟨rfl, rfl⟩

/-- C3: `flush` always succeeds and leaves the cache clean, performing no
underlying read; when the cache is dirty it performs exactly one underlying
write whose content is the cached value (`store` of the value when present,
`clear` of the slot when absent — the written slot equals the cached
optional value); when not dirty it changes nothing; and a second `flush`
right after is a no-op, so two successive flushes write only on the first. -/
theorem c3_flush_once (c : SyncCell α) (env : Env α) :
    ∃ c' env', c.flush env = some (c', env')
      ∧ c'.cache.is_dirty = false
      ∧ env'.reads = env.reads
      ∧ c'.cell = c.cell
      ∧ (if c.cache.is_dirty = true
          then env'.writes = env.writes + 1 ∧ c.cache.get = some env'.slot
          else c' = c ∧ env' = env)
      ∧ c'.flush env' = some (c', env') := by
  by_cases hd : c.cache.is_dirty = true
  · obtain ⟨ov, he⟩ := is_dirty_entry c hd
    cases ov with
    | none =>
      refine ⟨_, _, flush_of_dirty_none c env he, ?_, rfl, rfl, ?_, ?_⟩
      · simp [Cache.is_dirty, CacheEntry.is_dirty, SyncCacheEntry.is_dirty]
      · simp [hd, Cache.get, he, CacheEntry.get, SyncCacheEntry.get]
      · exact flush_of_not_dirty _ _
          (by simp [Cache.is_dirty, CacheEntry.is_dirty, SyncCacheEntry.is_dirty])
    | some v =>
      refine ⟨_, _, flush_of_dirty_some c env v he, ?_, rfl, rfl, ?_, ?_⟩
      · simp [Cache.is_dirty, CacheEntry.is_dirty, SyncCacheEntry.is_dirty]
      · simp [hd, Cache.get, he, CacheEntry.get, SyncCacheEntry.get]
      · exact flush_of_not_dirty _ _
          (by simp [Cache.is_dirty, CacheEntry.is_dirty, SyncCacheEntry.is_dirty])
  · have hd' : c.cache.is_dirty = false := by simpa using hd
    exact ⟨c, env, flush_of_not_dirty c env hd', hd', rfl, rfl,
      by simp [hd'], flush_of_not_dirty c env hd'⟩

/-- C6: reading a `Desync` cache entry is the fatal condition (modelled by
`CacheEntry.get`/`get_mut` returning `none`), and it is unreachable through
the public `SyncCell` API: `get`, `get_mut`, `mutate_with` and `flush` never
hit it (their results are always `some`), for every cell state, environment
and mutation closure. -/
theorem c6_desync_read_unreachable (c : SyncCell α) (env : Env α) (f : α → α) :
    CacheEntry.get (CacheEntry.Desync : CacheEntry α) = none
    ∧ CacheEntry.get_mut (CacheEntry.Desync : CacheEntry α) = none
    ∧ (c.get env).isSome = true
    ∧ (c.get_mut env).isSome = true
    ∧ (c.mutate_with f env).isSome = true
    ∧ (c.flush env).isSome = true := by
  obtain ⟨e, he⟩ := sync_cache_sync_entry c env
  refine ⟨rfl, rfl, ?_, ?_, ?_, ?_⟩
  · rw [get_eq_of_entry c env e he]; rfl
  · rw [get_mut_eq_of_entry c env e he]; rfl
  · cases hv : e.cell_val with
    | none => rw [mutate_with_eq_of_none c env f e he hv]; rfl
    | some v => rw [mutate_with_eq_of_some c env f e v he hv]; rfl
  · by_cases hd : c.cache.is_dirty = true
    · obtain ⟨ov, hoe⟩ := is_dirty_entry c hd
      cases ov with
      | none => rw [flush_of_dirty_none c env hoe]; rfl
      | some v => rw [flush_of_dirty_some c env v hoe]; rfl
    · rw [flush_of_not_dirty c env (by simpa using hd)]; rfl

/-- C7: a `Desync` entry is never dirty; `mark_dirty` and `mark_clean` are
no-ops on `Desync` and affect only the flag of a `Sync` entry (the value is
untouched); and the never-dirty-while-Desync invariant (`is_synced` or not
`is_dirty`) holds for every entry and is preserved by `update`, `mark_dirty`,
`mark_clean` and `write_through`. -/
theorem c7_desync_never_dirty (e : SyncCacheEntry α) (ce : CacheEntry α)
    (v : Option α) (w : α) :
    (CacheEntry.Desync : CacheEntry α).is_dirty = false
    ∧ CacheEntry.mark_dirty (CacheEntry.Desync : CacheEntry α) = CacheEntry.Desync
    ∧ CacheEntry.mark_clean (CacheEntry.Desync : CacheEntry α) = CacheEntry.Desync
    ∧ CacheEntry.mark_dirty (CacheEntry.Sync e)
        = CacheEntry.Sync { dirty := true, cell_val := e.cell_val }
    ∧ CacheEntry.mark_clean (CacheEntry.Sync e)
        = CacheEntry.Sync { dirty := false, cell_val := e.cell_val }
    ∧ (ce.is_synced || !ce.is_dirty) = true
    ∧ ((ce.update v).is_synced || !(ce.update v).is_dirty) = true
    ∧ ((ce.mark_dirty).is_synced || !(ce.mark_dirty).is_dirty) = true
    ∧ ((ce.mark_clean).is_synced || !(ce.mark_clean).is_dirty) = true
    ∧ ((ce.write_through w).is_synced || !(ce.write_through w).is_dirty) = true := by
  refine ⟨rfl, rfl, rfl, rfl, rfl, ?_, ?_, ?_, ?_, ?_⟩ <;>
    cases ce <;>
      simp [CacheEntry.is_synced, CacheEntry.is_dirty, CacheEntry.update,
        CacheEntry.mark_dirty, CacheEntry.mark_clean, CacheEntry.write_through]

/-- C9: encoding a `SyncCell` writes out only the underlying cell's address
(the cache takes no part in the encoding), and decoding reconstructs a cell
anchored at the decoded address with a fresh `Desync`, non-dirty cache; no
environment is consulted, i.e. no load happens. -/
theorem c9_codec (c : SyncCell α) (cache' : Cache α) (k : Nat) :
    SyncCell.encode c = TypedCell.encode c.cell
    ∧ SyncCell.encode { cell := c.cell, cache := cache' } = SyncCell.encode c
    ∧ (SyncCell.decode k : SyncCell α).cell = TypedCell.decode k
    ∧ (SyncCell.decode k : SyncCell α).cell.key = k
    ∧ (SyncCell.decode k : SyncCell α).cache.entry = CacheEntry.Desync
    ∧ (SyncCell.decode k : SyncCell α).cache.is_dirty = false
    ∧ (SyncCell.decode (SyncCell.encode c) : SyncCell α).cell.key = c.cell.key :=
  ⟨rfl, rfl, rfl, rfl, rfl, rfl, rfl⟩

/-- C2: on a cell whose cache is desynchronized (as after fresh construction
or fresh decoding, with no prior writes), any nonempty sequence of `get` and
`get_mut` calls performs exactly one underlying load — triggered by the first
call — and no underlying write; the slot content is untouched. -/
theorem c2_load_once (c : SyncCell α) (env : Env α) (op : ReadOp) (ops : List ReadOp)
    (h : c.cache.entry = CacheEntry.Desync) :
    ∃ c' env', runReads (op :: ops) c env = some (c', env')
      ∧ env'.reads = env.reads + 1
      ∧ env'.writes = env.writes
      ∧ env'.slot = env.slot := by
  cases op with
  | opGet =>
    obtain ⟨c', e', hrun, _, _⟩ :=
      runReads_synced ops
        { cell := c.cell,
          cache := { entry := CacheEntry.Sync { dirty := false, cell_val := env.slot } } }
        { slot := env.slot, reads := env.reads + 1, writes := env.writes }
        { dirty := false, cell_val := env.slot } rfl
    refine ⟨c', { slot := env.slot, reads := env.reads + 1, writes := env.writes },
      ?_, rfl, rfl, rfl⟩
    simp [runReads, get_eq_of_desync c env h, hrun]
  | opGetMut =>
    obtain ⟨c', e', hrun, _, _⟩ :=
      runReads_synced ops
        { cell := c.cell,
          cache := { entry := CacheEntry.Sync { dirty := true, cell_val := env.slot } } }
        { slot := env.slot, reads := env.reads + 1, writes := env.writes }
        { dirty := true, cell_val := env.slot } rfl
    refine ⟨c', { slot := env.slot, reads := env.reads + 1, writes := env.writes },
      ?_, rfl, rfl, rfl⟩
    simp [runReads, get_mut_eq_of_desync c env h, hrun]

/-- Witness for C2: a freshly constructed cell, a concrete environment and a
concrete three-call sequence. -/
theorem c2_load_once_witness :
    (SyncCell.new_using_alloc 0 : SyncCell Nat).cache.entry = CacheEntry.Desync
    ∧ ∃ c' env',
        runReads [ReadOp.opGet, ReadOp.opGetMut, ReadOp.opGet]
            (SyncCell.new_using_alloc 0 : SyncCell Nat)
            { slot := some 7, reads := 0, writes := 0 }
          = some (c', env')
        ∧ env'.reads = 0 + 1
        ∧ env'.writes = 0
        ∧ env'.slot = some 7 :=
  ⟨rfl, c2_load_once (SyncCell.new_using_alloc 0)
    { slot := some 7, reads := 0, writes := 0 }
    ReadOp.opGet [ReadOp.opGetMut, ReadOp.opGet] rfl⟩

/-- C4: for any `n + 1 ≥ 1` calls to `set v` (respectively `clear`) on any
cell followed by one `flush`, zero underlying reads and exactly one
underlying write occur, and the slot ends holding `some v` (respectively
nothing); `set` and `clear` themselves touch no environment by construction. -/
theorem c4_write_once (c : SyncCell α) (env : Env α) (n : Nat) (v : α) :
    (∃ c' env', (iterSet (n + 1) v c).flush env = some (c', env')
       ∧ env'.reads = env.reads
       ∧ env'.writes = env.writes + 1
       ∧ env'.slot = some v)
    ∧ (∃ c' env', (iterClear (n + 1) c).flush env = some (c', env')
       ∧ env'.reads = env.reads
       ∧ env'.writes = env.writes + 1
       ∧ env'.slot = none) := by
  constructor
  · rw [iterSet_succ]
    exact ⟨_, _, flush_of_dirty_some _ env v rfl, rfl, rfl, rfl⟩
  · rw [iterClear_succ]
    exact ⟨_, _, flush_of_dirty_none _ env rfl, rfl, rfl, rfl⟩

/-- C5: `mutate_with` on a cell whose (lazily synchronized) cached value is
absent returns no value, does not depend on the mutation closure (it is never
invoked), yet leaves the cache dirty, so a following `flush` performs exactly
one underlying erase write even though no value was ever present. -/
theorem c5_absent_mutate (c : SyncCell α) (env : Env α) (f g : α → α)
    (h : c.cached_value env = none) :
    ∃ c' env1, c.mutate_with f env = some (c', env1, none)
      ∧ c.mutate_with f env = c.mutate_with g env
      ∧ c'.cache.is_dirty = true
      ∧ ∃ c2 env2, c'.flush env1 = some (c2, env2)
          ∧ env2.reads = env1.reads
          ∧ env2.writes = env1.writes + 1
          ∧ env2.slot = none := by
  obtain ⟨e, he⟩ := sync_cache_sync_entry c env
  have hv : e.cell_val = none := by
    simpa [SyncCell.cached_value, he] using h
  refine ⟨_, _, mutate_with_eq_of_none c env f e he hv, ?_, ?_, ?_⟩
  · rw [mutate_with_eq_of_none c env f e he hv, mutate_with_eq_of_none c env g e he hv]
  · simp [Cache.is_dirty, CacheEntry.is_dirty, SyncCacheEntry.is_dirty]
  · exact ⟨_, _, flush_of_dirty_none _ _ rfl, rfl, rfl, rfl⟩

/-- Witness for C5: a fresh cell over an empty slot and two distinct
closures. -/
theorem c5_absent_mutate_witness :
    (SyncCell.new_using_alloc 0 : SyncCell Nat).cached_value
        { slot := none, reads := 0, writes := 0 } = none
    ∧ ∃ c' env1,
        (SyncCell.new_using_alloc 0 : SyncCell Nat).mutate_with (fun x => x + 1)
            { slot := none, reads := 0, writes := 0 }
          = some (c', env1, none)
        ∧ (SyncCell.new_using_alloc 0 : SyncCell Nat).mutate_with (fun x => x + 1)
              { slot := none, reads := 0, writes := 0 }
            = (SyncCell.new_using_alloc 0 : SyncCell Nat).mutate_with (fun x => x * 2)
              { slot := none, reads := 0, writes := 0 }
        ∧ c'.cache.is_dirty = true
        ∧ ∃ c2 env2, c'.flush env1 = some (c2, env2)
            ∧ env2.reads = env1.reads
            ∧ env2.writes = env1.writes + 1
            ∧ env2.slot = none :=
  ⟨rfl, c5_absent_mutate (SyncCell.new_using_alloc 0)
    { slot := none, reads := 0, writes := 0 } (fun x => x + 1) (fun x => x * 2) rfl⟩

/-- C8: round-trip through the cache without storage writes: a freshly
constructed cell over an empty slot reads back nothing; after `set v`, `get`
returns `some v` with no environment change; `mutate_with f` after `set v`
returns `f v` and a subsequent `get` reports `f v` as well; after `clear`,
`get` returns nothing. -/
theorem c8_round_trip (c : SyncCell α) (env : Env α) (v : α) (f : α → α) (key : Nat)
    (h : env.slot = none) :
    (SyncCell.new_using_alloc key : SyncCell α).get env
        = some ({ cell := { key := key },
                  cache := { entry := CacheEntry.Sync { dirty := false, cell_val := none } } },
                { slot := none, reads := env.reads + 1, writes := env.writes }, none)
    ∧ (c.set v).get env = some (c.set v, env, some v)
    ∧ (c.set v).mutate_with f env
        = some ({ cell := c.cell,
                  cache := { entry := CacheEntry.Sync { dirty := true,
                                                        cell_val := some (f v) } } },
                env, some (f v))
    ∧ ({ cell := c.cell,
         cache := { entry := CacheEntry.Sync { dirty := true, cell_val := some (f v) } } }
          : SyncCell α).get env
        = some ({ cell := c.cell,
                  cache := { entry := CacheEntry.Sync { dirty := true,
                                                        cell_val := some (f v) } } },
                env, some (f v))
    ∧ (c.clear).get env = some (c.clear, env, none) := by
  have hset : (c.set v).cache.entry
      = CacheEntry.Sync { dirty := true, cell_val := some v } := by
    rw [set_eq]
  have hclear : (c.clear).cache.entry
      = CacheEntry.Sync { dirty := true, cell_val := none } := by
    rw [clear_eq]
  refine ⟨?_, ?_, ?_, ?_, ?_⟩
  · have hg := get_eq_of_desync (SyncCell.new_using_alloc key : SyncCell α) env rfl
    rw [h] at hg
    exact hg
  · exact get_eq_of_synced (c.set v) env _ hset
  · have hs := sync_cache_of_sync_entry (c.set v) env _ hset
    have hm := mutate_with_eq_of_some (c.set v) env f
      { dirty := true, cell_val := some v } v (by rw [hs]; exact hset) rfl
    rw [hs] at hm
    exact hm
  · exact get_eq_of_synced _ env { dirty := true, cell_val := some (f v) } rfl
  · exact get_eq_of_synced (c.clear) env _ hclear

/-- Witness for C8: the reference scenario — fresh cell over an empty slot,
`set 5`, `mutate_with (+ 10)` yielding `15`, then `clear`. -/
theorem c8_round_trip_witness :
    ({ slot := none, reads := 0, writes := 0 } : Env Nat).slot = none
    ∧ ((SyncCell.new_using_alloc 0 : SyncCell Nat).set 5).mutate_with (fun x => x + 10)
          { slot := none, reads := 0, writes := 0 }
        = some ({ cell := { key := 0 },
                  cache := { entry := CacheEntry.Sync { dirty := true,
                                                        cell_val := some 15 } } },
                { slot := none, reads := 0, writes := 0 }, some 15) :=
  ⟨rfl, (c8_round_trip (SyncCell.new_using_alloc 0)
    { slot := none, reads := 0, writes := 0 } 5 (fun x => x + 10) 0 rfl).2.2.1⟩

/-- C10: for every nonempty sequence of `set`/`clear` operations followed by
one `flush`, the slot receives exactly the effect of the last operation —
`some v` when it was `set v`, an erase when it was `clear` — with no
underlying read and exactly one underlying write (so no earlier value of the
sequence ever reaches the slot). -/
theorem c10_last_write_wins (c : SyncCell α) (env : Env α)
    (ops : List (WriteOp α)) (lastOp : WriteOp α) :
    ∃ c' env', (runWrites (ops ++ [lastOp]) c).flush env = some (c', env')
      ∧ env'.reads = env.reads
      ∧ env'.writes = env.writes + 1
      ∧ env'.slot = lastEffect lastOp := by
  rw [runWrites_append_last]
  cases lastOp with
  | wset v => exact ⟨_, _, flush_of_dirty_some _ env v rfl, rfl, rfl, rfl⟩
  | wclear => exact ⟨_, _, flush_of_dirty_none _ env rfl, rfl, rfl, rfl⟩

end Theorems

end SyncCellSpec
